import Mathlib

/-!
# Verification of the syt-go-queue worker core

Shallow embedding of the worker-side job lifecycle of `igwen6w/syt-go-queue`:
identifier validation and record updates (`internal/database/database.go`),
SSRF-safe callback-URL validation (`internal/utils/url.go`), the LLM task
handler (`internal/worker/handler.go`) and the circuit-breaker wiring
(`internal/circuitbreaker/circuitbreaker.go`).

Side-effecting collaborators (MySQL, DNS, HTTP, the asynq queue) are passed in
as explicit oracle values; machine integers are modelled as `Nat`/`Int` (none of
the involved quantities can overflow in the scenarios the spec describes), and
Go's `float64` failure ratio is modelled as `ℚ`.
-/

namespace SytQueue

/-! ## Identifier validators (`internal/database/database.go`) -/

/-- Character class of the Go regexp `^[a-zA-Z0-9_]+$`. -/
def isWordChar (c : Char) : Bool :=
  (Char.ofNat 97 ≤ c && c ≤ Char.ofNat 122) ||   -- a-z
  (Char.ofNat 65 ≤ c && c ≤ Char.ofNat 90) ||    -- A-Z
  (Char.ofNat 48 ≤ c && c ≤ Char.ofNat 57) ||    -- 0-9
  c = Char.ofNat 95                               -- _

/-- `regexp.MustCompile("^[a-zA-Z0-9_]+$").MatchString s`: the whole string is
one or more word characters. -/
def matchesIdentRegex (s : String) : Bool :=
  !s.data.isEmpty && s.data.all isWordChar

/-- ASCII lowering of one character, as Go `strings.ToLower` acts on the ASCII
subset (identifiers that pass the regexp are pure ASCII). -/
def lowerChar (c : Char) : Char :=
  if Char.ofNat 65 ≤ c && c ≤ Char.ofNat 90 then Char.ofNat (c.toNat + 32) else c

/-- `strings.ToLower` on the ASCII subset. -/
def lowerStr (s : String) : String :=
  ⟨s.data.map lowerChar⟩

/-- Reserved keywords checked by `validateTableName` (database.go:51). -/
def tableReservedKeywords : List String :=
  ["select", "from", "where", "insert", "update", "delete", "drop", "alter", "table"]

/-- Reserved keywords checked by `validateFieldName` (database.go:71-72). -/
def fieldReservedKeywords : List String :=
  ["select", "from", "where", "insert", "update", "delete", "drop", "alter", "table",
   "and", "or", "not", "like", "in", "between", "is", "null", "true", "false"]

/-- `validateTableName` (database.go:43-60). -/
def validateTableName (tableName : String) : Except String Unit :=
  if !matchesIdentRegex tableName then
    .error ("invalid table name: " ++ tableName)
  else if tableReservedKeywords.contains (lowerStr tableName) then
    .error ("table name cannot be a reserved keyword: " ++ tableName)
  else
    .ok ()

/-- `validateFieldName` (database.go:62-81). -/
def validateFieldName (fieldName : String) : Except String Unit :=
  if !matchesIdentRegex fieldName then
    .error ("invalid field name: " ++ fieldName)
  else if fieldReservedKeywords.contains (lowerStr fieldName) then
    .error ("field name cannot be a reserved keyword: " ++ fieldName)
  else
    .ok ()

/-- Success test for `Except`. -/
def isOk {ε α : Type} : Except ε α → Bool
  | .ok _ => true
  | .error _ => false

/-- Spec-side acceptance predicate for an identifier against a keyword list:
the string matches `^[A-Za-z0-9_]+$` and, lowered, is none of the keywords. -/
def specIdentOk (s : String) (keywords : List String) : Prop :=
  s.data ≠ [] ∧ (∀ c ∈ s.data, isWordChar c) ∧ ∀ k ∈ keywords, lowerStr s ≠ k

instance (s : String) (ks : List String) : Decidable (specIdentOk s ks) := by
  unfold specIdentOk; infer_instance

/-! ## Callback-URL safety (`internal/utils/url.go`)

An IP address is a byte list (`net.IP`): length 4 for a four-byte IPv4 value,
length 16 for an IPv6 value; Go's `net.ParseIP` stores dotted quads in the
16-byte IPv4-mapped form `::ffff:a.b.c.d`. -/

/-- The 16-byte IPv4-mapped form that `net.ParseIP` produces for `a.b.c.d`. -/
def v4Mapped (a b c d : Nat) : List Nat :=
  [0, 0, 0, 0, 0, 0, 0, 0, 0, 0, 255, 255, a, b, c, d]

/-- `net.IP.To4`: a 4-byte value is returned as is, a 16-byte IPv4-mapped value
is shortened to its last four bytes, anything else gives `none` (Go `nil`). -/
def to4 (ip : List Nat) : Option (List Nat) :=
  match ip with
  | [a, b, c, d] => some [a, b, c, d]
  | [p0, p1, p2, p3, p4, p5, p6, p7, p8, p9, p10, p11, a, b, c, d] =>
    if p0 = 0 ∧ p1 = 0 ∧ p2 = 0 ∧ p3 = 0 ∧ p4 = 0 ∧ p5 = 0 ∧ p6 = 0 ∧ p7 = 0 ∧
        p8 = 0 ∧ p9 = 0 ∧ p10 = 255 ∧ p11 = 255 then
      some [a, b, c, d]
    else
      none
  | _ => none

/-- `forbiddenIPRanges` (url.go:17-40), each endpoint as `net.ParseIP` stores it. -/
def forbiddenIPRanges : List (List Nat × List Nat) :=
  [ (v4Mapped 10 0 0 0, v4Mapped 10 255 255 255),
    (v4Mapped 172 16 0 0, v4Mapped 172 31 255 255),
    (v4Mapped 192 168 0 0, v4Mapped 192 168 255 255),
    (v4Mapped 127 0 0 0, v4Mapped 127 255 255 255),
    (v4Mapped 0 0 0 0, v4Mapped 0 255 255 255),
    (v4Mapped 169 254 0 0, v4Mapped 169 254 255 255),
    (v4Mapped 192 0 2 0, v4Mapped 192 0 2 255),
    (v4Mapped 198 51 100 0, v4Mapped 198 51 100 255),
    (v4Mapped 203 0 113 0, v4Mapped 203 0 113 255),
    (v4Mapped 224 0 0 0, v4Mapped 239 255 255 255),
    (v4Mapped 240 0 0 0, v4Mapped 255 255 255 255),
    (v4Mapped 100 64 0 0, v4Mapped 100 127 255 255),
    (v4Mapped 192 0 0 0, v4Mapped 192 0 0 255),
    (v4Mapped 198 18 0 0, v4Mapped 198 19 255 255),
    ([32, 1, 13, 184, 0, 0, 0, 0, 0, 0, 0, 0, 0, 0, 0, 0],
     [32, 1, 13, 184, 255, 255, 255, 255, 255, 255, 255, 255, 255, 255, 255, 255]),
    ([252, 0, 0, 0, 0, 0, 0, 0, 0, 0, 0, 0, 0, 0, 0, 0],
     [253, 255, 255, 255, 255, 255, 255, 255, 255, 255, 255, 255, 255, 255, 255, 255]),
    ([254, 128, 0, 0, 0, 0, 0, 0, 0, 0, 0, 0, 0, 0, 0, 0],
     [254, 191, 255, 255, 255, 255, 255, 255, 255, 255, 255, 255, 255, 255, 255, 255]),
    ([0, 0, 0, 0, 0, 0, 0, 0, 0, 0, 0, 0, 0, 0, 0, 1],
     [0, 0, 0, 0, 0, 0, 0, 0, 0, 0, 0, 0, 0, 0, 0, 1]),
    ([0, 0, 0, 0, 0, 0, 0, 0, 0, 0, 0, 0, 0, 0, 0, 0],
     [0, 0, 0, 0, 0, 0, 0, 0, 0, 0, 0, 0, 0, 0, 0, 0]) ]

/-- The byte loop of `ipInRange` (url.go:64-71). In every reachable call the
three lists have equal length (4 or 16); on a longer `ip` the Go code would
panic, which no modelled call exercises. -/
def ipInRangeLoop : List Nat → List Nat → List Nat → Bool
  | i :: is, lo :: los, hi :: his =>
    if i < lo ∨ hi < i then false
    else if i ≠ lo ∧ i ≠ hi then true
    else ipInRangeLoop is los his
  | _, _, _ => true

/-- `ipInRange` (url.go:53-73): normalise through `To4` when the probed address
has a 4-byte form, reject on a failed conversion, then run the byte loop. -/
def ipInRange (ip lo hi : List Nat) : Bool :=
  match to4 ip with
  | some ip4 =>
    match to4 lo, to4 hi with
    | some lo4, some hi4 => ipInRangeLoop ip4 lo4 hi4
    | _, _ => false
  | none => ipInRangeLoop ip lo hi

/-- `forbiddenHostnames` (url.go:43-50). -/
def forbiddenHostnames : List String :=
  ["localhost", "127.0.0.1", "::1", "0.0.0.0", "[::1]", "[::0]"]

/-- `allowedSchemes` (url.go:11-14). -/
def allowedScheme (s : String) : Bool :=
  s = "http" || s = "https"

/-- The parts of a parsed URL the validator looks at (`url.Parse` output). -/
structure ParsedURL where
  scheme : String
  hostname : String
deriving DecidableEq

/-- `ValidateCallbackURL` (url.go:77-111). `url.Parse` and `net.LookupIP` are
ambient effects, so the model takes the already-parsed URL and the resolver
outcome (`none` = resolution error, `some ips` = the resolved address set).
The Go loop reports the first forbidden address; only the presence of that
error, not its text, is modelled. -/
def ValidateCallbackURL (u : ParsedURL) (resolved : Option (List (List Nat))) :
    Except String Unit :=
  if !allowedScheme u.scheme then
    .error ("URL scheme not allowed: " ++ u.scheme)
  else if forbiddenHostnames.contains (lowerStr u.hostname) then
    .error ("hostname not allowed: " ++ u.hostname)
  else
    match resolved with
    | none => .error "failed to resolve hostname"
    | some ips =>
      if ips.any (fun ip => forbiddenIPRanges.any fun r => ipInRange ip r.1 r.2) then
        .error "IP address in forbidden range"
      else
        .ok ()

/-- A well-formed resolved address: an IPv4 or IPv6 byte list. -/
def WfIP (ip : List Nat) : Prop :=
  (ip.length = 4 ∨ ip.length = 16) ∧ ∀ b ∈ ip, b ≤ 255

instance (ip : List Nat) : Decidable (WfIP ip) := by
  unfold WfIP; infer_instance

/-- Lexicographic comparison of equal-length byte lists. -/
def bytesLE : List Nat → List Nat → Bool
  | [], [] => true
  | a :: as, b :: bs => if a < b then true else if a = b then bytesLE as bs else false
  | _, _ => false

/-- `lo ≤ ip ≤ hi` in lexicographic byte order: the address lies inside the
range with endpoints `lo` and `hi`. -/
def inByteInterval (ip lo hi : List Nat) : Bool :=
  bytesLE lo ip && bytesLE ip hi

/-- A range whose endpoints are CIDR-aligned: the endpoint lists agree on a
prefix, then either end, or split once into an all-zeros / all-255 tail. Every
range in `forbiddenIPRanges` has this shape, which is what makes the byte loop
of `ipInRange` agree with true interval membership. -/
def alignedRange : List Nat → List Nat → Bool
  | [], [] => true
  | a :: lo, b :: hi =>
    if a = b then alignedRange lo hi
    else if a < b ∧ b ≤ 255 ∧ lo = List.replicate lo.length 0 ∧
        hi = List.replicate hi.length 255 ∧ lo.length = hi.length then true
    else false
  | _, _ => false

/-- Interval-membership semantics for one entry of the code's range table,
mirroring the `To4` normalisation of `ipInRange`: a 4-byte (or IPv4-mapped)
address is measured against the 4-byte form of an IPv4 range and lies in no
IPv6 range; other 16-byte addresses are measured against the 16-byte endpoint
lists directly. -/
def rangeHits (ip : List Nat) (r : List Nat × List Nat) : Bool :=
  match to4 ip with
  | some ip4 =>
    match to4 r.1, to4 r.2 with
    | some lo4, some hi4 => inByteInterval ip4 lo4 hi4
    | _, _ => false
  | none => inByteInterval ip r.1 r.2

/-- The address lies inside one of the ranges the code's table lists
(interval semantics, not the byte loop). -/
def inDisallowedRange (ip : List Nat) : Bool :=
  forbiddenIPRanges.any (rangeHits ip)

/-- Modelled from the spec: the IPv4 ranges the claim lists, as 4-byte
intervals (10/8, 172.16/12, 192.168/16, 127/8, 169.254/16, 192.0.2/24,
198.51.100/24, 203.0.113/24, 224/4, 240/4, 100.64/10, 198.18/15 and the
single address 0.0.0.0). -/
def claimRangesV4 : List (List Nat × List Nat) :=
  [ ([10, 0, 0, 0], [10, 255, 255, 255]),
    ([172, 16, 0, 0], [172, 31, 255, 255]),
    ([192, 168, 0, 0], [192, 168, 255, 255]),
    ([127, 0, 0, 0], [127, 255, 255, 255]),
    ([169, 254, 0, 0], [169, 254, 255, 255]),
    ([192, 0, 2, 0], [192, 0, 2, 255]),
    ([198, 51, 100, 0], [198, 51, 100, 255]),
    ([203, 0, 113, 0], [203, 0, 113, 255]),
    ([224, 0, 0, 0], [239, 255, 255, 255]),
    ([240, 0, 0, 0], [255, 255, 255, 255]),
    ([100, 64, 0, 0], [100, 127, 255, 255]),
    ([198, 18, 0, 0], [198, 19, 255, 255]),
    ([0, 0, 0, 0], [0, 0, 0, 0]) ]

/-- Modelled from the spec: the IPv6 ranges the claim lists (fe80::/10,
fc00::/7, 2001:db8::/32 and the single addresses `::` and `::1`). -/
def claimRangesV6 : List (List Nat × List Nat) :=
  [ ([254, 128, 0, 0, 0, 0, 0, 0, 0, 0, 0, 0, 0, 0, 0, 0],
     [254, 191, 255, 255, 255, 255, 255, 255, 255, 255, 255, 255, 255, 255, 255, 255]),
    ([252, 0, 0, 0, 0, 0, 0, 0, 0, 0, 0, 0, 0, 0, 0, 0],
     [253, 255, 255, 255, 255, 255, 255, 255, 255, 255, 255, 255, 255, 255, 255, 255]),
    ([32, 1, 13, 184, 0, 0, 0, 0, 0, 0, 0, 0, 0, 0, 0, 0],
     [32, 1, 13, 184, 255, 255, 255, 255, 255, 255, 255, 255, 255, 255, 255, 255]),
    ([0, 0, 0, 0, 0, 0, 0, 0, 0, 0, 0, 0, 0, 0, 0, 0],
     [0, 0, 0, 0, 0, 0, 0, 0, 0, 0, 0, 0, 0, 0, 0, 0]),
    ([0, 0, 0, 0, 0, 0, 0, 0, 0, 0, 0, 0, 0, 0, 0, 1],
     [0, 0, 0, 0, 0, 0, 0, 0, 0, 0, 0, 0, 0, 0, 0, 1]) ]

/-- Modelled from the spec: the address lies inside one of the ranges claim C2
lists (the claim's list omits the code's 0.0.0.0/8 and 192.0.0.0/24 entries). -/
def inClaimListedRange (ip : List Nat) : Bool :=
  match to4 ip with
  | some ip4 => claimRangesV4.any fun r => inByteInterval ip4 r.1 r.2
  | none => claimRangesV6.any fun r => inByteInterval ip r.1 r.2

/-- Side conditions under which the byte loop computes interval membership for
one table entry: endpoints are 16 bytes, CIDR-aligned, and their `To4` forms
(when defined) are aligned 4-byte lists. All of `forbiddenIPRanges` passes. -/
def rangeTableOk (r : List Nat × List Nat) : Bool :=
  alignedRange r.1 r.2 && decide (r.1.length = 16) &&
  (match to4 r.1, to4 r.2 with
   | some lo4, some hi4 => alignedRange lo4 hi4 && decide (lo4.length = 4)
   | none, none => true
   | _, _ => false)

/-- `ValidateCallbackURL` on a raw URL string: `url.Parse` and `net.LookupIP`
appear as explicit `parse` / `resolve` parameters. -/
def ValidateCallbackURLStr (parse : String → Option ParsedURL)
    (resolve : String → Option (List (List Nat))) (url : String) : Except String Unit :=
  match parse url with
  | none => .error ("invalid URL format: " ++ url)
  | some u => ValidateCallbackURL u (resolve u.hostname)

/-! ## Record store (`internal/database/database.go`) and the task handler
(`internal/worker/handler.go`)

Database statements and outbound HTTP are ambient effects: each model takes
the outcome of the corresponding external call as an `Except` argument and
additionally records the database operations it performs as a trace. -/

/-- `ValuationRecord` (database.go:14-26); Go `int`/`int64` fields as `Int`. -/
structure ValuationRecord where
  id : Int
  status : String
  userMessage : String
  sysMessage : String
  report : String
  failedTimes : Int
  failedInfo : String
  progress : String
  progressInfo : String
  currentTaskNode : Int
  callbackURL : String
deriving DecidableEq

/-- The `interface` values the worker ever puts into an update map. -/
inductive GoValue where
  | str (s : String)
  | int (i : Int)
deriving DecidableEq

/-- One database operation issued by the worker, with its arguments. An update
operation is recorded when its SQL statement executes successfully; a failed
execution leaves no modelled effect. -/
inductive DBOp where
  | readRecord (table : String) (id : Int)
  | updateStatus (table : String) (id : Int) (status : String)
  | updateFields (table : String) (id : Int) (updates : List (String × GoValue))
deriving DecidableEq

/-- `errors.Wrap` / `fmt.Errorf("...: %w", err)` message formatting. -/
def wrap (msg e : String) : String :=
  msg ++ ": " ++ e

/-- `GetValuationRecord` (database.go:84-109): validate the table name, then
run the SELECT, whose row (or failure) is the ambient `fetch` outcome. -/
def GetValuationRecord (table : String) (id : Int)
    (fetch : Except String ValuationRecord) :
    Except String ValuationRecord × List DBOp :=
  match validateTableName table with
  | .error e => (.error e, [])
  | .ok () =>
    match fetch with
    | .ok rcd => (.ok rcd, [.readRecord table id])
    | .error e => (.error (wrap "failed to get valuation record" e), [.readRecord table id])

/-- `UpdateStatus` (database.go:112-132). -/
def UpdateStatus (table : String) (id : Int) (status : String)
    (exec : Except String Unit) : Except String Unit × List DBOp :=
  match validateTableName table with
  | .error e => (.error e, [])
  | .ok () =>
    match exec with
    | .ok () => (.ok (), [.updateStatus table id status])
    | .error e => (.error (wrap "failed to update status" e), [])

/-- The `callback_url` check inside the validation loop of `UpdateRecord`
(database.go:167-175): only a non-empty string value is validated.
`urlValidate` stands for `utils.ValidateCallbackURL` with its ambient parsing
and DNS resolution. -/
def checkCallbackField (urlValidate : String → Except String Unit)
    (f : String) (v : GoValue) : Except String Unit :=
  if f = "callback_url" then
    match v with
    | .str url =>
      if url = "" then .ok ()
      else
        match urlValidate url with
        | .error e => .error (wrap "invalid callback URL" e)
        | .ok () => .ok ()
    | .int _ => .ok ()
  else
    .ok ()

/-- The validation loop of `UpdateRecord` (database.go:160-176): every field
name is validated and `callback_url` values are checked before any SQL is
built. Go map iteration order is arbitrary; the list fixes one order, which
only affects which of several validation errors is reported first. -/
def validateUpdates (urlValidate : String → Except String Unit) :
    List (String × GoValue) → Except String Unit
  | [] => .ok ()
  | (f, v) :: rest =>
    match validateFieldName f with
    | .error e => .error e
    | .ok () =>
      match checkCallbackField urlValidate f v with
      | .error e => .error e
      | .ok () => validateUpdates urlValidate rest

/-- `UpdateRecord` (database.go:150-202): validate the table name and the whole
field map, then execute one UPDATE statement setting all fields. -/
def UpdateRecord (table : String) (id : Int) (updates : List (String × GoValue))
    (urlValidate : String → Except String Unit) (exec : Except String Unit) :
    Except String Unit × List DBOp :=
  match validateTableName table with
  | .error e => (.error e, [])
  | .ok () =>
    match validateUpdates urlValidate updates with
    | .error e => (.error e, [])
    | .ok () =>
      match exec with
      | .ok () => (.ok (), [.updateFields table id updates])
      | .error e => (.error (wrap "failed to update record" e), [])

/-- Status constants (handler.go:25-29). -/
def StatusProcessing : String := "处理中"

/-- See `StatusProcessing`. -/
def StatusCompleted : String := "已完成"

/-- See `StatusProcessing`. -/
def StatusFailed : String := "失败"

/-- `task.LLMPayload` (task/llm.go:13-16). -/
structure LLMPayload where
  tableName : String
  id : Int
deriving DecidableEq

/-- The downstream completion response as the worker sees it: HTTP status, the
raw body, and the JSON-decoded choice contents (`none` = decode failure). -/
structure HttpResp where
  status : Nat
  body : String
  choices : Option (List String)
deriving DecidableEq

/-- The function `processLLM` hands to the circuit breaker
(handler.go:259-312): classify the completion response. `resp` is the ambient
outcome of `client.Do` (`.error` = transport failure). -/
def llmInner (resp : Except String HttpResp) : Except String String :=
  match resp with
  | .error e => .error (wrap "failed to send LLM API request" e)
  | .ok r =>
    if r.status ≠ 200 then
      .error ("LLM API request failed with status: " ++ toString r.status ++
        ", body: " ++ r.body)
    else
      match r.choices with
      | none => .error "failed to decode LLM API response"
      | some [] => .error "empty response from LLM API"
      | some (c :: _) =>
        if c = "" then .error "empty response from LLM API" else .ok c

/-- `sendCallback` (handler.go:91-127): re-validate the URL, then POST;
`post` is the ambient HTTP outcome (`.error` = transport failure,
`.ok code` = response status). -/
def sendCallback (urlValidate : String → Except String Unit)
    (callbackURL result : String) (post : Except String Nat) :
    Except String Unit :=
  match urlValidate callbackURL with
  | .error e => .error (wrap "callback URL validation failed" e)
  | .ok () =>
    match post with
    | .error e => .error (wrap "failed to send callback request" e)
    | .ok code => if code ≠ 200 then
        .error ("callback request failed with status: " ++ toString code)
      else .ok ()

/-- The ambient world one `HandleLLMTask` attempt interacts with. `result`
models the `json.Unmarshal` outcome; `llm` the `processLLM` outcome; the
`Except` fields are the outcomes of the corresponding external calls. -/
structure HandlerEnv where
  payload : Except String LLMPayload
  fetch : Except String ValuationRecord
  statusExec : Except String Unit
  updateExec : Except String Unit
  llm : Except String String
  post : Except String Nat
  urlValidate : String → Except String Unit

instance {ε α : Type} [DecidableEq ε] [DecidableEq α] : DecidableEq (Except ε α) :=
  fun x y =>
    match x, y with
    | .ok a, .ok b =>
      if h : a = b then isTrue (by rw [h]) else isFalse (by intro hc; cases hc; exact h rfl)
    | .error a, .error b =>
      if h : a = b then isTrue (by rw [h]) else isFalse (by intro hc; cases hc; exact h rfl)
    | .ok _, .error _ => isFalse (by intro hc; cases hc)
    | .error _, .ok _ => isFalse (by intro hc; cases hc)

/-- What one attempt produced: the error returned to asynq, the database
operations performed, and the callback outcome, which the Go code only logs
(handler.go:202-211). -/
structure HandlerOutput where
  result : Except String Unit
  trace : List DBOp
  callbackOutcome : Option (Except String Unit)
deriving DecidableEq

/-- `HandleLLMTask` (handler.go:138-214). -/
def HandleLLMTask (env : HandlerEnv) : HandlerOutput :=
  match env.payload with
  | .error e =>
    { result := .error (wrap "failed to unmarshal payload" e), trace := [],
      callbackOutcome := none }
  | .ok p =>
    match GetValuationRecord p.tableName p.id env.fetch with
    | (.error e, tr1) =>
      { result := .error (wrap "failed to get valuation record" e), trace := tr1,
        callbackOutcome := none }
    | (.ok rcd, tr1) =>
      match UpdateStatus p.tableName p.id StatusProcessing env.statusExec with
      | (.error e, tr2) =>
        { result := .error (wrap "failed to update status" e), trace := tr1 ++ tr2,
          callbackOutcome := none }
      | (.ok (), tr2) =>
        match env.llm with
        | .error e =>
          let updates := [("status", GoValue.str StatusFailed),
                          ("failed_times", GoValue.int (rcd.failedTimes + 1)),
                          ("failed_info", GoValue.str e)]
          match UpdateRecord p.tableName p.id updates env.urlValidate env.updateExec with
          | (.error ue, tr3) =>
            { result := .error (wrap "failed to update failure information" ue),
              trace := tr1 ++ tr2 ++ tr3, callbackOutcome := none }
          | (.ok (), tr3) =>
            { result := .error (wrap "failed to process LLM" e),
              trace := tr1 ++ tr2 ++ tr3, callbackOutcome := none }
        | .ok result =>
          let updates := [("status", GoValue.str StatusCompleted),
                          ("report", GoValue.str result),
                          ("current_task_node", GoValue.int (rcd.currentTaskNode + 1))]
          match UpdateRecord p.tableName p.id updates env.urlValidate env.updateExec with
          | (.error ue, tr3) =>
            { result := .error (wrap "failed to update record" ue),
              trace := tr1 ++ tr2 ++ tr3, callbackOutcome := none }
          | (.ok (), tr3) =>
            { result := .ok (), trace := tr1 ++ tr2 ++ tr3,
              callbackOutcome :=
                if rcd.callbackURL ≠ "" then
                  some (sendCallback env.urlValidate rcd.callbackURL result env.post)
                else none }

/-- Modelled from the spec: the Queue Runtime (asynq, an external collaborator
whose code is not in this repository) redelivers a job whose attempt returned
an error until its retry budget is exhausted. The repository returns plain
wrapped errors and never marks one with a skip-retry sentinel, so to the queue
every returned error is retryable. -/
def queueRedelivers (result : Except String Unit) (retriesLeft : Nat) : Bool :=
  !isOk result && decide (0 < retriesLeft)

/-! ## Spec-side record invariants (claim C9) -/

/-- The spec's abstract record statuses (§3). -/
inductive SpecStatus where
  | pending
  | processing
  | completed
  | failed
deriving DecidableEq

/-- Map a stored status string to the spec's abstract status: any string other
than the three worker-written constants is the producer's pending marker. -/
def asSpecStatus (s : String) : SpecStatus :=
  if s = StatusProcessing then .processing
  else if s = StatusCompleted then .completed
  else if s = StatusFailed then .failed
  else .pending

/-- The status transitions the spec allows:
Pending→Processing→{Completed|Failed}. -/
def allowedStep (a b : SpecStatus) : Prop :=
  (a = .pending ∧ b = .processing) ∨
  (a = .processing ∧ (b = .completed ∨ b = .failed))

instance (a b : SpecStatus) : Decidable (allowedStep a b) := by
  unfold allowedStep; infer_instance

/-- The status values one database operation writes. -/
def statusStringsOf (op : DBOp) : List String :=
  match op with
  | .updateStatus _ _ s => [s]
  | .updateFields _ _ us =>
    us.filterMap fun fv =>
      match fv with
      | (f, .str s) => if f = "status" then some s else none
      | _ => none
  | .readRecord _ _ => []

/-- The record's status history over one attempt: the fetched status followed
by every status value the trace writes, in order. -/
def statusTrail (init : String) (tr : List DBOp) : List SpecStatus :=
  (init :: (tr.map statusStringsOf).flatten).map asSpecStatus

/-- The `failed_times` values a trace writes. -/
def failedTimesWrites (tr : List DBOp) : List Int :=
  (tr.map fun op =>
    match op with
    | .updateFields _ _ us =>
      us.filterMap fun fv =>
        match fv with
        | (f, .int i) => if f = "failed_times" then some i else none
        | _ => none
    | _ => ([] : List Int)).flatten

/-- `needle` occurs as a contiguous run inside `hay`. -/
def listContainsSub (needle : List Char) : List Char → Bool
  | [] => needle.isEmpty
  | l@(_ :: rest) => needle.isPrefixOf l || listContainsSub needle rest

/-- Substring test, used to state what an error message captures. -/
def strContainsSub (hay needle : String) : Bool :=
  listContainsSub needle.data hay.data

/-! ## Circuit breaker (`internal/circuitbreaker/circuitbreaker.go`)

The repository wraps `sony/gobreaker`, an external dependency whose code is
not part of this repository; the state machine below is modelled from the
spec (§4.2): Closed passes calls through and counts outcomes in a rolling
window; it trips to Open when `ReadyToTrip` holds; Open fails fast without
invoking the wrapped function until `timeout` elapses; Half-Open admits at
most `maxRequests` trial calls, returning to Closed on enough successes and
to Open on a failure. Durations are in seconds, timestamps are an explicit
`now` argument. -/

/-- Breaker states. -/
inductive BState where
  | closed
  | opened
  | halfOpen
deriving DecidableEq

/-- `gobreaker.Counts`. -/
structure BCounts where
  requests : Nat
  totalSuccesses : Nat
  totalFailures : Nat
  consecutiveSuccesses : Nat
  consecutiveFailures : Nat
deriving DecidableEq

/-- All-zero counters. -/
def BCounts.zero : BCounts := ⟨0, 0, 0, 0, 0⟩

/-- Count one admitted request. -/
def BCounts.onRequest (c : BCounts) : BCounts :=
  { c with requests := c.requests + 1 }

/-- Count one success. -/
def BCounts.onSuccess (c : BCounts) : BCounts :=
  { c with
    totalSuccesses := c.totalSuccesses + 1
    consecutiveSuccesses := c.consecutiveSuccesses + 1
    consecutiveFailures := 0 }

/-- Count one failure. -/
def BCounts.onFailure (c : BCounts) : BCounts :=
  { c with
    totalFailures := c.totalFailures + 1
    consecutiveFailures := c.consecutiveFailures + 1
    consecutiveSuccesses := 0 }

/-- `CircuitBreakerConfig` (circuitbreaker.go:16-22); the `float64` failure
threshold is modelled in `ℚ`. -/
structure BreakerConfig where
  maxRequests : Nat
  interval : Nat
  timeout : Nat
  failThreshold : ℚ
deriving DecidableEq

/-- The `ReadyToTrip` predicate the repository installs
(circuitbreaker.go:31-34): at least five requests in the window and a failure
ratio at or above the configured threshold. The ratio
`float64(TotalFailures)/float64(Requests)` is written `mkRat`, which equals
`(c.totalFailures : ℚ) / (c.requests : ℚ)` (see `readyToTrip_iff`) but also
evaluates inside the kernel. -/
def readyToTrip (threshold : ℚ) (c : BCounts) : Bool :=
  decide (5 ≤ c.requests) &&
  decide (threshold ≤ mkRat c.totalFailures c.requests)

/-- Breaker instance state. -/
structure Breaker where
  cfg : BreakerConfig
  state : BState
  counts : BCounts
  expiry : Nat
deriving DecidableEq

/-- Start a fresh Closed-state counting window at `now`. -/
def newGenerationClosed (b : Breaker) (now : Nat) : Breaker :=
  { b with
    counts := BCounts.zero
    expiry := if b.cfg.interval = 0 then 0 else now + b.cfg.interval }

/-- Trip to Open at `now`; leaves it after `timeout` seconds. -/
def tripOpen (b : Breaker) (now : Nat) : Breaker :=
  { b with state := .opened, counts := BCounts.zero, expiry := now + b.cfg.timeout }

/-- Lazy state refresh before a call: roll the Closed window when its interval
expired, and leave Open for Half-Open after `timeout`. -/
def currentState (b : Breaker) (now : Nat) : Breaker :=
  match b.state with
  | .closed => if b.expiry ≠ 0 ∧ b.expiry ≤ now then newGenerationClosed b now else b
  | .opened =>
    if b.expiry ≤ now then
      { b with state := .halfOpen, counts := BCounts.zero, expiry := 0 }
    else b
  | .halfOpen => b

/-- Record a successful call. -/
def afterSuccess (b : Breaker) (now : Nat) : Breaker :=
  match b.state with
  | .closed => { b with counts := b.counts.onSuccess }
  | .halfOpen =>
    let c := b.counts.onSuccess
    if b.cfg.maxRequests ≤ c.consecutiveSuccesses then
      newGenerationClosed { b with state := .closed } now
    else { b with counts := c }
  | .opened => b

/-- Record a failed call: a Closed breaker trips when `readyToTrip` holds on
the updated window; a Half-Open breaker goes straight back to Open. -/
def afterFailure (b : Breaker) (now : Nat) : Breaker :=
  match b.state with
  | .closed =>
    let c := b.counts.onFailure
    if readyToTrip b.cfg.failThreshold c then tripOpen b now else { b with counts := c }
  | .halfOpen => tripOpen b now
  | .opened => b

/-- The error values `gobreaker.CircuitBreaker.Execute` can produce beyond the
wrapped function's own error. -/
inductive BreakerError where
  | openState
  | tooManyRequests
  | wrapped (e : String)
deriving DecidableEq

/-- `Execute` (circuitbreaker.go:49-51 wrapping gobreaker): fail fast while
Open, bound trial calls while Half-Open, otherwise run the function and record
its outcome. The final component reports whether `fn` was invoked. -/
def Breaker.execute (b : Breaker) (now : Nat) (fn : Unit → Except String String) :
    Except BreakerError String × Breaker × Bool :=
  let b1 := currentState b now
  match b1.state with
  | .opened => (.error .openState, b1, false)
  | .halfOpen =>
    if b1.cfg.maxRequests ≤ b1.counts.requests then
      (.error .tooManyRequests, b1, false)
    else
      let b2 := { b1 with counts := b1.counts.onRequest }
      match fn () with
      | .ok v => (.ok v, afterSuccess b2 now, true)
      | .error e => (.error (.wrapped e), afterFailure b2 now, true)
  | .closed =>
    let b2 := { b1 with counts := b1.counts.onRequest }
    match fn () with
    | .ok v => (.ok v, afterSuccess b2 now, true)
    | .error e => (.error (.wrapped e), afterFailure b2 now, true)

/-- `NewCircuitBreaker` (circuitbreaker.go:25-46), created at process start
(time 0). -/
def NewCircuitBreaker (cfg : BreakerConfig) : Breaker :=
  { cfg := cfg
    state := .closed
    counts := BCounts.zero
    expiry := if cfg.interval = 0 then 0 else cfg.interval }

/-- `DefaultLLMCircuitBreaker` (circuitbreaker.go:64-72): 2 half-open
requests, a 1-minute window, a 2-minute open timeout and a 0.5 threshold. -/
def DefaultLLMCircuitBreaker : Breaker :=
  NewCircuitBreaker
    { maxRequests := 2
      interval := 60
      timeout := 120
      failThreshold := mkRat 1 2 }

/-- `config.CircuitBreakerConfig` (config.go:98-104). -/
structure WorkerCBConfig where
  enabled : Bool
  maxRequests : Nat
  interval : Nat
  timeout : Nat
  failThreshold : ℚ
deriving DecidableEq

/-- The breaker `NewTaskHandler` installs (handler.go:52-71): the configured
one when the flag is on, otherwise `DefaultLLMCircuitBreaker`. -/
def newTaskHandlerBreaker (c : WorkerCBConfig) : Breaker :=
  if c.enabled then
    NewCircuitBreaker
      { maxRequests := c.maxRequests
        interval := c.interval
        timeout := c.timeout
        failThreshold := c.failThreshold }
  else
    DefaultLLMCircuitBreaker

/-- `processLLM` (handler.go:227-331): run `llmInner` through the breaker and
translate a breaker-open error into its distinct message. -/
def processLLM (b : Breaker) (now : Nat) (resp : Except String HttpResp) :
    Except String String × Breaker × Bool :=
  match b.execute now (fun _ => llmInner resp) with
  | (.ok v, b2, inv) => (.ok v, b2, inv)
  | (.error .openState, b2, inv) =>
    (.error "service temporarily unavailable: circuit breaker is open", b2, inv)
  | (.error .tooManyRequests, b2, inv) => (.error "too many requests", b2, inv)
  | (.error (.wrapped e), b2, inv) => (.error e, b2, inv)

/-- One failed completion call against a breaker at time 0 (witness data). -/
def failOnce (b : Breaker) : Breaker :=
  (b.execute 0 fun _ => .error "boom").2.1

/-- The default breaker after five consecutive failures (witness data). -/
def trippedBreaker : Breaker :=
  failOnce (failOnce (failOnce (failOnce (failOnce DefaultLLMCircuitBreaker))))


/-- Recogniser for multi-field update operations in a trace. -/
def isFieldsWrite : DBOp → Bool
  | .updateFields _ _ _ => true
  | _ => false

/-- A validator oracle that accepts everything (witness data). -/
def okValidate : String → Except String Unit := fun _ => .ok ()

/-- A validator oracle that rejects everything (witness data). -/
def alwaysBadValidate : String → Except String Unit := fun _ => .error "always bad"

/-- A sample row (witness data). -/
def sampleRecord (status cb : String) : ValuationRecord :=
  { id := 123
    status := status
    userMessage := "u"
    sysMessage := "s"
    report := ""
    failedTimes := 0
    failedInfo := ""
    progress := ""
    progressInfo := ""
    currentTaskNode := 1
    callbackURL := cb }

/-- An attempt whose payload does not decode (witness data). -/
def envDecodeFail : HandlerEnv :=
  { payload := .error "invalid character"
    fetch := .error "unused"
    statusExec := .ok ()
    updateExec := .ok ()
    llm := .error "unused"
    post := .ok 200
    urlValidate := okValidate }

/-- A fully successful attempt on a pending record (witness data). -/
def envSuccess : HandlerEnv :=
  { payload := .ok ⟨"valuation_records", 123⟩
    fetch := .ok (sampleRecord "pending" "")
    statusExec := .ok ()
    updateExec := .ok ()
    llm := .ok "ok"
    post := .ok 200
    urlValidate := okValidate }

/-- An attempt whose completion call failed with HTTP 500 (witness data). -/
def envLLMFail : HandlerEnv :=
  { payload := .ok ⟨"valuation_records", 123⟩
    fetch := .ok (sampleRecord "pending" "")
    statusExec := .ok ()
    updateExec := .ok ()
    llm := .error "LLM API request failed with status: 500, body: boom"
    post := .ok 200
    urlValidate := okValidate }

/-- A redelivered attempt against an already completed record (witness data). -/
def envCompletedRedelivery : HandlerEnv :=
  { payload := .ok ⟨"valuation_records", 123⟩
    fetch := .ok (sampleRecord StatusCompleted "")
    statusExec := .ok ()
    updateExec := .ok ()
    llm := .ok "ok"
    post := .ok 200
    urlValidate := okValidate }

/-- Parser outcome for the link-local metadata URL of spec scenario C
(witness data). -/
def linkLocalParse : String → Option ParsedURL := fun _ => some ⟨"http", "169.254.169.254"⟩

/-- Resolver outcome for the link-local metadata host (witness data). -/
def linkLocalResolve : String → Option (List (List Nat)) := fun _ => some [[169, 254, 169, 254]]

/-- The URL Safety Validator as scenario C exercises it (witness data). -/
def scenValidate : String → Except String Unit :=
  ValidateCallbackURLStr linkLocalParse linkLocalResolve

/-- A successful attempt whose record carries the scenario-C callback URL
(witness data). -/
def envCallbackFail : HandlerEnv :=
  { payload := .ok ⟨"valuation_records", 123⟩
    fetch := .ok (sampleRecord "pending" "http://169.254.169.254/")
    statusExec := .ok ()
    updateExec := .ok ()
    llm := .ok "ok"
    post := .ok 200
    urlValidate := scenValidate }

/-- Parser that yields an empty scheme and hostname, as Go's `url.Parse`
does on the empty string (counterexample data). -/
def emptyURLParse : String → Option ParsedURL := fun _ => some ⟨"", ""⟩

/-- A resolver that always fails (counterexample data). -/
def noResolve : String → Option (List (List Nat)) := fun _ => none

/-- The URL Safety Validator over `emptyURLParse`/`noResolve`: it rejects the
empty string because its scheme is empty (counterexample data). -/
def strictValidate : String → Except String Unit :=
  ValidateCallbackURLStr emptyURLParse noResolve

/-! ## Helper lemmas -/

lemma bytesLE_rep_zero : ∀ is : List Nat, bytesLE (List.replicate is.length 0) is = true
  | [] => rfl
  | a :: as => by
    simp only [List.length_cons, List.replicate_succ, bytesLE]
    split_ifs with h1 h2
    · rfl
    · exact bytesLE_rep_zero as
    · omega

lemma bytesLE_rep_255 : ∀ is : List Nat, (∀ x ∈ is, x ≤ 255) →
    bytesLE is (List.replicate is.length 255) = true
  | [], _ => rfl
  | a :: as, h => by
    simp only [List.length_cons, List.replicate_succ, bytesLE]
    have ha : a ≤ 255 := h a (by simp)
    split_ifs with h1 h2
    · rfl
    · exact bytesLE_rep_255 as fun x hx => h x (by simp [hx])
    · omega

lemma ipInRangeLoop_rep : ∀ is : List Nat, (∀ x ∈ is, x ≤ 255) →
    ipInRangeLoop is (List.replicate is.length 0) (List.replicate is.length 255) = true
  | [], _ => rfl
  | a :: as, h => by
    simp only [List.length_cons, List.replicate_succ, ipInRangeLoop]
    have ha : a ≤ 255 := h a (by simp)
    split_ifs with h1 h2
    · omega
    · rfl
    · exact ipInRangeLoop_rep as fun x hx => h x (by simp [hx])

lemma ipInRangeLoop_eq_interval (lo : List Nat) : ∀ (hi ip : List Nat),
    alignedRange lo hi = true → ip.length = lo.length → (∀ x ∈ ip, x ≤ 255) →
    ipInRangeLoop ip lo hi = inByteInterval ip lo hi := by
  induction lo with
  | nil =>
    intro hi ip hal hlen hb
    cases hi with
    | nil =>
      have : ip = [] := List.length_eq_zero.mp hlen
      subst this; rfl
    | cons b hi => simp [alignedRange] at hal
  | cons a lo ih =>
    intro hi ip hal hlen hb
    cases hi with
    | nil => simp [alignedRange] at hal
    | cons b hi =>
      cases ip with
      | nil => simp at hlen
      | cons i is =>
        have hi255 : i ≤ 255 := hb i (by simp)
        have hlen2 : is.length = lo.length := by simpa using hlen
        have hbs : ∀ x ∈ is, x ≤ 255 := fun x hx => hb x (by simp [hx])
        simp only [alignedRange] at hal
        split_ifs at hal with hab hsplit
        · subst hab
          simp only [ipInRangeLoop, inByteInterval, bytesLE]
          rcases Nat.lt_trichotomy i a with h | h | h
          · rw [if_pos (Or.inl h), if_neg (by omega : ¬ a < i), if_neg (by omega : ¬ a = i)]
            simp
          · subst h
            rw [if_neg (by omega), if_neg (by simp), if_neg (by omega : ¬ i < i),
              if_pos rfl, if_neg (by omega : ¬ i < i), if_pos rfl]
            simpa [inByteInterval] using ih hi is hal hlen2 hbs
          · rw [if_pos (Or.inr h), if_pos (by omega : a < i), if_neg (by omega : ¬ i < a),
              if_neg (by omega : ¬ i = a)]
            simp
        · obtain ⟨hab2, hb255, hlo0, hhi255, hlh⟩ := hsplit
          simp only [ipInRangeLoop, inByteInterval, bytesLE]
          by_cases h1 : i < a
          · rw [if_pos (Or.inl h1), if_neg (by omega : ¬ a < i), if_neg (by omega : ¬ a = i)]
            simp
          · by_cases h2 : b < i
            · rw [if_pos (Or.inr h2), if_neg (by omega : ¬ i < b), if_neg (by omega : ¬ i = b)]
              simp
            · rw [if_neg (by omega : ¬ (i < a ∨ b < i))]
              have eloop : ipInRangeLoop is lo hi = true := by
                rw [hlo0, hhi255, ← hlh, ← hlen2]
                exact ipInRangeLoop_rep is hbs
              by_cases h3 : i = a
              · subst h3
                rw [if_neg (by simp), if_neg (by omega : ¬ i < i), if_pos rfl,
                  if_pos (by omega : i < b), eloop]
                have e2 : bytesLE lo is = true := by
                  rw [hlo0, ← hlen2]
                  exact bytesLE_rep_zero is
                rw [e2]
                rfl
              · by_cases h4 : i = b
                · subst h4
                  rw [if_neg (by simp [h3]), if_pos (by omega : a < i),
                    if_neg (by omega : ¬ i < i), if_pos rfl, eloop]
                  have e2 : bytesLE is hi = true := by
                    rw [hhi255, ← hlh, ← hlen2]
                    exact bytesLE_rep_255 is hbs
                  rw [e2]
                  rfl
                · rw [if_pos ⟨h3, h4⟩, if_pos (by omega : a < i), if_pos (by omega : i < b)]
                  simp

lemma to4_of_length4 (ip : List Nat) (h : ip.length = 4) : ∃ l, to4 ip = some l := by
  match ip, h with
  | [a, b, c, d], _ => exact ⟨[a, b, c, d], rfl⟩

lemma to4_some_props (ip ip4 : List Nat) (h : to4 ip = some ip4) :
    ip4.length = 4 ∧ ∀ x ∈ ip4, x ∈ ip := by
  unfold to4 at h
  split at h
  · cases h
    exact ⟨rfl, by intro x hx; simpa using hx⟩
  · split_ifs at h
    cases h
    refine ⟨rfl, ?_⟩
    intro x hx
    simp at hx
    rcases hx with rfl | rfl | rfl | rfl <;> simp
  · cases h

lemma any_congr_mem {α : Type} (l : List α) (f g : α → Bool)
    (h : ∀ a ∈ l, f a = g a) : l.any f = l.any g := by
  induction l with
  | nil => rfl
  | cons a t ih =>
    simp only [List.any_cons, h a (by simp)]
    rw [ih fun x hx => h x (by simp [hx])]

lemma ipInRange_eq_rangeHits (r : List Nat × List Nat) (hr : rangeTableOk r = true)
    (ip : List Nat) (hwf : WfIP ip) : ipInRange ip r.1 r.2 = rangeHits ip r := by
  obtain ⟨hlen, hb⟩ := hwf
  simp only [rangeTableOk, Bool.and_eq_true, decide_eq_true_eq] at hr
  obtain ⟨⟨hal16, hlen16⟩, hmatch⟩ := hr
  unfold ipInRange rangeHits
  cases hip : to4 ip with
  | some ip4 =>
    obtain ⟨hl4, hsub⟩ := to4_some_props ip ip4 hip
    cases h1 : to4 r.1 with
    | none =>
      cases h2 : to4 r.2 with
      | none => rfl
      | some hi4 =>
        simp only [h1, h2] at hmatch
        exact Bool.noConfusion hmatch
    | some lo4 =>
      cases h2 : to4 r.2 with
      | none =>
        simp only [h1, h2] at hmatch
        exact Bool.noConfusion hmatch
      | some hi4 =>
        rw [h1, h2] at hmatch
        simp only [Bool.and_eq_true, decide_eq_true_eq] at hmatch
        obtain ⟨hal4, hlo4len⟩ := hmatch
        exact ipInRangeLoop_eq_interval lo4 hi4 ip4 hal4 (by omega)
          fun x hx => hb x (hsub x hx)
  | none =>
    have hlen16b : ip.length = 16 := by
      rcases hlen with h | h
      · obtain ⟨l, hl⟩ := to4_of_length4 ip h
        rw [hl] at hip; cases hip
      · exact h
    exact ipInRangeLoop_eq_interval r.1 r.2 ip hal16 (by omega) hb

lemma forbidden_any_eq (ip : List Nat) (hwf : WfIP ip) :
    (forbiddenIPRanges.any fun r => ipInRange ip r.1 r.2) = inDisallowedRange ip := by
  unfold inDisallowedRange
  refine any_congr_mem _ _ _ fun r hr => ipInRange_eq_rangeHits r ?_ ip hwf
  have hall : forbiddenIPRanges.all rangeTableOk = true := by decide
  exact List.all_eq_true.mp hall r hr

lemma suffix_strAppend (a b : String) : b.data <:+ (a ++ b).data :=
  ⟨a.data, (String.data_append a b).symm⟩

lemma suffix_wrap (msg e : String) : e.data <:+ (wrap msg e).data :=
  suffix_strAppend (msg ++ ": ") e

lemma validateUpdates_failedSet (uv : String → Except String Unit) (n : Int) (e : String) :
    validateUpdates uv
      [("status", GoValue.str StatusFailed), ("failed_times", GoValue.int n),
       ("failed_info", GoValue.str e)] = .ok () := rfl

lemma validateUpdates_completedSet (uv : String → Except String Unit) (r : String) (n : Int) :
    validateUpdates uv
      [("status", GoValue.str StatusCompleted), ("report", GoValue.str r),
       ("current_task_node", GoValue.int n)] = .ok () := rfl

lemma currentState_cfg (b : Breaker) (now : Nat) : (currentState b now).cfg = b.cfg := by
  unfold currentState
  cases b.state <;> dsimp only <;> split_ifs <;> rfl

lemma readyToTrip_iff (th : ℚ) (c : BCounts) :
    readyToTrip th c = true ↔
      (5 ≤ c.requests ∧ th ≤ (c.totalFailures : ℚ) / (c.requests : ℚ)) := by
  unfold readyToTrip
  rw [Bool.and_eq_true, decide_eq_true_eq, decide_eq_true_eq, Rat.mkRat_eq_div]
  norm_num

/-! ## Claim theorems -/

/-- C1 (counterexample): the table-name validator accepts `null`, which the
claim's 19-keyword reserved list (shared, per the claim, by both validators)
rejects. -/
theorem C1_counterexample :
    isOk (validateTableName "null") = true ∧
    ¬ specIdentOk "null" fieldReservedKeywords := by
  decide

/-- C1 (amended): each validator accepts exactly the strings that match
`^[A-Za-z0-9_]+$` and, lowercased, avoid its own reserved list — the
19-keyword list for field names, but only the 9 keywords
select/from/where/insert/update/delete/drop/alter/table for table names. -/
theorem C1_validator_characterization (s : String) :
    (isOk (validateTableName s) = true ↔ specIdentOk s tableReservedKeywords) ∧
    (isOk (validateFieldName s) = true ↔ specIdentOk s fieldReservedKeywords) := by
  constructor
  · unfold validateTableName specIdentOk matchesIdentRegex
    split_ifs with h1 h2 <;>
      simp_all [isOk, List.isEmpty_iff, List.all_eq_true]
    · intro hne hall
      rcases h1 with h | ⟨x, hx, hfx⟩
      · exact (hne h).elim
      · simp [hall x hx] at hfx
    · exact fun k hk heq => h2 (heq ▸ hk)
  · unfold validateFieldName specIdentOk matchesIdentRegex
    split_ifs with h1 h2 <;>
      simp_all [isOk, List.isEmpty_iff, List.all_eq_true]
    · intro hne hall
      rcases h1 with h | ⟨x, hx, hfx⟩
      · exact (hne h).elim
      · simp [hall x hx] at hfx
    · exact fun k hk heq => h2 (heq ▸ hk)

/-- C2 (counterexample): a URL with an allowed scheme, an unblocked hostname,
and a single resolved address 192.0.0.1 that lies outside every range the
claim lists is nonetheless rejected, because the code's table additionally
contains 192.0.0.0/24 (and 0.0.0.0/8). -/
theorem C2_counterexample :
    allowedScheme "http" = true ∧
    lowerStr "example.com" ∉ forbiddenHostnames ∧
    inClaimListedRange [192, 0, 0, 1] = false ∧
    isOk (ValidateCallbackURL ⟨"http", "example.com"⟩ (some [[192, 0, 0, 1]])) = false := by
  decide

/-- C2 (amended): for well-formed resolved addresses, `ValidateCallbackURL`
succeeds exactly when the scheme is http or https, the lowercased hostname is
not in the literal block-list, resolution succeeded (failure is a rejection),
and every resolved address lies outside every range of the code's table —
the claim's list extended with 0.0.0.0/8 and 192.0.0.0/24. -/
theorem C2_validate_iff (u : ParsedURL) (r : Option (List (List Nat)))
    (hwf : ∀ ips, r = some ips → ∀ ip ∈ ips, WfIP ip) :
    isOk (ValidateCallbackURL u r) = true ↔
      ((u.scheme = "http" ∨ u.scheme = "https") ∧
       lowerStr u.hostname ∉ forbiddenHostnames ∧
       ∃ ips, r = some ips ∧ ∀ ip ∈ ips, inDisallowedRange ip = false) := by
  unfold ValidateCallbackURL
  split_ifs with h1 h2
  · simp only [isOk]
    constructor
    · intro h; exact Bool.noConfusion h
    · rintro ⟨hs, -, -⟩
      have hall : allowedScheme u.scheme = true := by
        rcases hs with h | h <;> simp [allowedScheme, h]
      simp [hall] at h1
  · simp only [isOk]
    constructor
    · intro h; exact Bool.noConfusion h
    · rintro ⟨-, hh, -⟩
      exact absurd (by simpa using h2) hh
  · cases hr : r with
    | none => simp [isOk]
    | some ips =>
      dsimp only
      have hco : ∀ ip ∈ ips, (forbiddenIPRanges.any fun rg => ipInRange ip rg.1 rg.2)
          = inDisallowedRange ip := fun ip hip => forbidden_any_eq ip (hwf ips hr ip hip)
      by_cases hany : ips.any (fun ip => forbiddenIPRanges.any fun rg => ipInRange ip rg.1 rg.2) = true
      · rw [if_pos hany]
        simp only [isOk]
        constructor
        · intro h; exact Bool.noConfusion h
        · rintro ⟨hs, hh, ips2, heq, hall⟩
          cases heq
          rw [List.any_eq_true] at hany
          obtain ⟨ip, hip, hin⟩ := hany
          rw [hco ip hip] at hin
          rw [hall ip hip] at hin
          exact Bool.noConfusion hin
      · rw [if_neg hany]
        simp only [isOk, true_iff, iff_true]
        refine ⟨?_, ?_, ips, rfl, ?_⟩
        · exact or_iff_not_imp_left.mpr (by simpa [allowedScheme] using h1)
        · intro hmem
          exact h2 (by simpa using hmem)
        · intro ip hip
          rw [← hco ip hip]
          exact Bool.eq_false_iff.mpr fun hcontr =>
            hany (List.any_eq_true.mpr ⟨ip, hip, hcontr⟩)

/-- C2 (witness): a URL resolving to the public address 8.8.8.8 passes. -/
theorem C2_witness :
    isOk (ValidateCallbackURL ⟨"http", "example.com"⟩ (some [[8, 8, 8, 8]])) = true :=
  (C2_validate_iff ⟨"http", "example.com"⟩ (some [[8, 8, 8, 8]]) (by decide)).mpr
    ⟨Or.inl rfl, by decide, [[8, 8, 8, 8]], rfl, by decide⟩

/-- C3: when the completion call fails and the failure write is accepted by
the store, the attempt performs exactly one `update_fields`, writing
status=Failed, failed_times = fetched value + 1 and failed_info = the error
text, and returns an error that carries the original completion error. -/
theorem C3_failure_write (env : HandlerEnv) (p : LLMPayload) (rcd : ValuationRecord)
    (e : String)
    (hp : env.payload = .ok p)
    (ht : validateTableName p.tableName = .ok ())
    (hf : env.fetch = .ok rcd)
    (hs : env.statusExec = .ok ())
    (hl : env.llm = .error e)
    (hu : env.updateExec = .ok ()) :
    HandleLLMTask env =
      { result := .error (wrap "failed to process LLM" e)
        trace := [.readRecord p.tableName p.id,
                  .updateStatus p.tableName p.id StatusProcessing,
                  .updateFields p.tableName p.id
                    [("status", .str StatusFailed),
                     ("failed_times", .int (rcd.failedTimes + 1)),
                     ("failed_info", .str e)]]
        callbackOutcome := none } ∧
    ((HandleLLMTask env).trace.countP isFieldsWrite = 1 ∧
     ∃ m, (HandleLLMTask env).result = .error m ∧ e.data <:+ m.data) := by
  have hmain : HandleLLMTask env =
      { result := .error (wrap "failed to process LLM" e)
        trace := [.readRecord p.tableName p.id,
                  .updateStatus p.tableName p.id StatusProcessing,
                  .updateFields p.tableName p.id
                    [("status", .str StatusFailed),
                     ("failed_times", .int (rcd.failedTimes + 1)),
                     ("failed_info", .str e)]]
        callbackOutcome := none } := by
    unfold HandleLLMTask GetValuationRecord UpdateStatus UpdateRecord
    simp only [hp, ht, hf, hs, hl, hu, validateUpdates_failedSet]
    rfl
  refine ⟨hmain, ?_, ?_⟩
  · rw [hmain]
    rfl
  · rw [hmain]
    exact ⟨wrap "failed to process LLM" e, rfl, suffix_wrap _ _⟩

/-- C3 (witness): the scenario-B attempt ends with exactly one
`update_fields` call. -/
theorem C3_witness :
    (HandleLLMTask envLLMFail).trace.countP isFieldsWrite = 1 :=
  (C3_failure_write envLLMFail ⟨"valuation_records", 123⟩ (sampleRecord "pending" "")
    "LLM API request failed with status: 500, body: boom"
    rfl (by decide) rfl rfl rfl rfl).2.1

/-- C4 (counterexample): an HTTP-200 response whose decoded choice list is
empty fails with the fixed text `empty response from LLM API`, which does not
capture the raw response body, contradicting the claim's assertion that every
such failure carries the body. -/
theorem C4_counterexample :
    llmInner (.ok ⟨200, "BODY-xyz", some []⟩) = .error "empty response from LLM API" ∧
    strContainsSub "empty response from LLM API" "BODY-xyz" = false := by
  decide

/-- C4 (amended): the completion call succeeds exactly when the response has
HTTP status 200 and a non-empty first choice; a non-200 status fails with the
raw body captured in the error, while an empty or absent choice fails with a
fixed error text; on success the record is updated via one `update_fields`
call to status=Completed, report = the returned content and
current_task_node = fetched value + 1. -/
theorem C4_success_classification :
    (∀ r : HttpResp,
      isOk (llmInner (.ok r)) = true ↔
        (r.status = 200 ∧ ∃ c cs, r.choices = some (c :: cs) ∧ c ≠ "")) ∧
    (∀ r : HttpResp, r.status ≠ 200 →
      ∃ m, llmInner (.ok r) = .error m ∧ r.body.data <:+ m.data) ∧
    (∀ (env : HandlerEnv) (p : LLMPayload) (rcd : ValuationRecord) (result : String),
      env.payload = .ok p →
      validateTableName p.tableName = .ok () →
      env.fetch = .ok rcd →
      env.statusExec = .ok () →
      env.llm = .ok result →
      env.updateExec = .ok () →
      HandleLLMTask env =
        { result := .ok ()
          trace := [.readRecord p.tableName p.id,
                    .updateStatus p.tableName p.id StatusProcessing,
                    .updateFields p.tableName p.id
                      [("status", .str StatusCompleted),
                       ("report", .str result),
                       ("current_task_node", .int (rcd.currentTaskNode + 1))]]
          callbackOutcome :=
            if rcd.callbackURL ≠ "" then
              some (sendCallback env.urlValidate rcd.callbackURL result env.post)
            else none }) := by
  refine ⟨?_, ?_, ?_⟩
  · intro r
    rcases r with ⟨st, body, choices⟩
    unfold llmInner
    dsimp only
    by_cases hst : st ≠ 200
    · rw [if_pos hst]
      constructor
      · intro h; exact Bool.noConfusion h
      · rintro ⟨h200, -⟩; exact absurd h200 hst
    · rw [if_neg hst]
      push_neg at hst
      subst hst
      cases choices with
      | none =>
        constructor
        · intro h; exact Bool.noConfusion h
        · rintro ⟨-, c, cs, hcc, -⟩; exact Option.noConfusion hcc
      | some l =>
        cases l with
        | nil =>
          constructor
          · intro h; exact Bool.noConfusion h
          · rintro ⟨-, c, cs, hcc, -⟩
            exact List.noConfusion (Option.some.inj hcc)
        | cons c cs =>
          dsimp only
          by_cases hc : c = ""
          · rw [if_pos hc]
            constructor
            · intro h; exact Bool.noConfusion h
            · rintro ⟨-, c2, cs2, hcc, hne⟩
              obtain ⟨h1, h2⟩ := List.cons.inj (Option.some.inj hcc)
              exact (hne (h1 ▸ hc)).elim
          · rw [if_neg hc]
            exact ⟨fun _ => ⟨rfl, c, cs, rfl, hc⟩, fun _ => rfl⟩
  · intro r hst
    unfold llmInner
    dsimp only
    rw [if_pos hst]
    exact ⟨_, rfl, suffix_strAppend _ _⟩
  · intro env p rcd result hp ht hf hs hl hu
    unfold HandleLLMTask GetValuationRecord UpdateStatus UpdateRecord
    simp only [hp, ht, hf, hs, hl, hu, validateUpdates_completedSet]
    rfl

/-- C4 (witness): scenario A ends with the record Completed, the report set,
and the task node advanced; a 500 response's error carries the body. -/
theorem C4_witness :
    (∃ m, llmInner (.ok ⟨500, "oops", none⟩) = .error m ∧ "oops".data <:+ m.data) ∧
    HandleLLMTask envSuccess =
      { result := .ok ()
        trace := [.readRecord "valuation_records" 123,
                  .updateStatus "valuation_records" 123 StatusProcessing,
                  .updateFields "valuation_records" 123
                    [("status", .str StatusCompleted),
                     ("report", .str "ok"),
                     ("current_task_node", .int 2)]]
        callbackOutcome := none } :=
  ⟨C4_success_classification.2.1 ⟨500, "oops", none⟩ (by decide),
   by
    have h := C4_success_classification.2.2 envSuccess ⟨"valuation_records", 123⟩
      (sampleRecord "pending" "") "ok" rfl (by decide) rfl rfl rfl rfl
    rw [h]
    rfl⟩

/-- C5: once the success write has happened, a failing callback delivery is
only recorded in the log: the attempt still returns success and performs no
further database write. -/
theorem C5_callback_only_logged (env : HandlerEnv) (p : LLMPayload)
    (rcd : ValuationRecord) (result ce : String)
    (hp : env.payload = .ok p)
    (ht : validateTableName p.tableName = .ok ())
    (hf : env.fetch = .ok rcd)
    (hs : env.statusExec = .ok ())
    (hl : env.llm = .ok result)
    (hu : env.updateExec = .ok ())
    (hcb : rcd.callbackURL ≠ "")
    (hsend : sendCallback env.urlValidate rcd.callbackURL result env.post = .error ce) :
    HandleLLMTask env =
      { result := .ok ()
        trace := [.readRecord p.tableName p.id,
                  .updateStatus p.tableName p.id StatusProcessing,
                  .updateFields p.tableName p.id
                    [("status", .str StatusCompleted),
                     ("report", .str result),
                     ("current_task_node", .int (rcd.currentTaskNode + 1))]]
        callbackOutcome := some (.error ce) } := by
  unfold HandleLLMTask GetValuationRecord UpdateStatus UpdateRecord
  simp only [hp, ht, hf, hs, hl, hu, validateUpdates_completedSet, hsend]
  rw [if_pos hcb]
  rfl

/-- C5 (witness): scenario C — the metadata-address callback URL is rejected
by the validator, yet the job result is success. -/
theorem C5_witness :
    (HandleLLMTask envCallbackFail).result = .ok () := by
  have h := C5_callback_only_logged envCallbackFail ⟨"valuation_records", 123⟩
    (sampleRecord "pending" "http://169.254.169.254/") "ok"
    (wrap "callback URL validation failed" "IP address in forbidden range")
    rfl (by decide) rfl rfl rfl rfl (by decide) (by decide)
  rw [h]

/-- C6: the breaker trips from Closed to Open exactly when the window (with
the just-recorded failure) has at least 5 requests and a failure ratio at or
above the threshold — never on a success — and while Open every `Execute`
fails immediately with the breaker-open error without invoking the wrapped
function. -/
theorem C6_breaker_trip_and_open :
    (∀ (th : ℚ) (c : BCounts),
      readyToTrip th c = true ↔
        (5 ≤ c.requests ∧ th ≤ (c.totalFailures : ℚ) / (c.requests : ℚ))) ∧
    (∀ (b : Breaker) (now : Nat) (fn : Unit → Except String String) (e : String),
      (currentState b now).state = .closed → fn () = .error e →
      ((b.execute now fn).2.1.state = BState.opened ↔
        readyToTrip b.cfg.failThreshold
          (((currentState b now).counts.onRequest).onFailure) = true)) ∧
    (∀ (b : Breaker) (now : Nat) (fn : Unit → Except String String) (v : String),
      (currentState b now).state = .closed → fn () = .ok v →
      (b.execute now fn).2.1.state = BState.closed) ∧
    (∀ (b : Breaker) (now : Nat) (fn : Unit → Except String String),
      (currentState b now).state = .opened →
      b.execute now fn = (.error .openState, currentState b now, false)) := by
  refine ⟨readyToTrip_iff, ?_, ?_, ?_⟩
  · intro b now fn e hcs hfn
    unfold Breaker.execute
    dsimp only
    rw [hcs, hfn]
    dsimp only
    unfold afterFailure
    dsimp only
    rw [currentState_cfg]
    by_cases hrt : readyToTrip b.cfg.failThreshold
        (((currentState b now).counts.onRequest).onFailure) = true
    · rw [if_pos hrt]
      simp [tripOpen, hrt]
    · rw [if_neg hrt]
      exact iff_of_false (fun h => BState.noConfusion h) hrt
  · intro b now fn v hcs hfn
    unfold Breaker.execute
    dsimp only
    rw [hcs, hfn]
    dsimp only
    unfold afterSuccess
    dsimp only
  · intro b now fn hop
    unfold Breaker.execute
    dsimp only
    rw [hop]

/-- C6 (witness): with the default settings, the first failure from Closed
does not trip (1 request < minimum sample), and after five consecutive
failures the breaker is Open and the sixth call fails fast with the
breaker-open error without invoking the function. -/
theorem C6_witness :
    ((((DefaultLLMCircuitBreaker.execute 0 fun _ => .error "boom").2.1.state = BState.opened) ↔
       readyToTrip DefaultLLMCircuitBreaker.cfg.failThreshold
         (((currentState DefaultLLMCircuitBreaker 0).counts.onRequest).onFailure) = true) ∧
     trippedBreaker.execute 0 (fun _ => .error "x") =
       (.error .openState, currentState trippedBreaker 0, false)) :=
  ⟨C6_breaker_trip_and_open.2.1 DefaultLLMCircuitBreaker 0 (fun _ => .error "boom")
     "boom" (by decide) rfl,
   C6_breaker_trip_and_open.2.2.2 trippedBreaker 0 (fun _ => .error "x") (by decide)⟩

/-- C7 (counterexample): the decode error is returned to the queue as an
ordinary error (no skip-retry marking anywhere in the repository), so a job
with retry budget left is redelivered — the claim's "not retried" fails. -/
theorem C7_counterexample :
    (HandleLLMTask envDecodeFail).trace = [] ∧
    queueRedelivers (HandleLLMTask envDecodeFail).result 3 = true := by
  decide

/-- C7 (amended): a payload that fails to decode fails the attempt
immediately, before any record access, but the error is surfaced to the Queue
Runtime like any other error, so the queue redelivers it while retry budget
remains. -/
theorem C7_decode_failure (env : HandlerEnv) (e : String)
    (hp : env.payload = .error e) :
    HandleLLMTask env =
      { result := .error (wrap "failed to unmarshal payload" e)
        trace := []
        callbackOutcome := none } ∧
    ∀ n : Nat, queueRedelivers (HandleLLMTask env).result (n + 1) = true := by
  have hmain : HandleLLMTask env =
      { result := .error (wrap "failed to unmarshal payload" e)
        trace := []
        callbackOutcome := none } := by
    unfold HandleLLMTask
    simp only [hp]
  refine ⟨hmain, fun n => ?_⟩
  rw [hmain]
  unfold queueRedelivers isOk
  simp

/-- C7 (witness): the malformed-payload attempt touches no record and is
redelivered. -/
theorem C7_witness :
    queueRedelivers (HandleLLMTask envDecodeFail).result 1 = true :=
  (C7_decode_failure envDecodeFail "invalid character" rfl).2 0

/-- C8 (counterexample): setting `callback_url` to the empty string bypasses
the URL Safety Validator entirely — the validator rejects the empty string,
yet the update is executed — so the claim's "every callback_url value must
pass the validator" fails. -/
theorem C8_counterexample :
    isOk (strictValidate "") = false ∧
    UpdateRecord "valuation_records" 123 [("callback_url", GoValue.str "")]
      strictValidate (.ok ()) =
      (.ok (), [.updateFields "valuation_records" 123
        [("callback_url", GoValue.str "")]]) := by
  decide

/-- C8 (amended): when a field map sets a non-empty string `callback_url`
value that the URL Safety Validator rejects, the whole update returns an
error and no field is written. -/
theorem C8_bad_url_blocks_update (table : String) (id : Int)
    (updates : List (String × GoValue)) (uv : String → Except String Unit)
    (exec : Except String Unit) (url ve : String)
    (hmem : ("callback_url", GoValue.str url) ∈ updates) (hne : url ≠ "")
    (hbad : uv url = .error ve) :
    isOk (UpdateRecord table id updates uv exec).1 = false ∧
    (UpdateRecord table id updates uv exec).2 = [] := by
  have hvu : ∃ e, validateUpdates uv updates = .error e := by
    clear exec
    induction updates with
    | nil => simp at hmem
    | cons fv rest ih =>
      obtain ⟨f, v⟩ := fv
      rcases List.mem_cons.mp hmem with heq | hmem2
      · have hfe : f = "callback_url" := congrArg Prod.fst heq.symm
        have hve : v = GoValue.str url := congrArg Prod.snd heq.symm
        subst hfe
        subst hve
        refine ⟨wrap "invalid callback URL" ve, ?_⟩
        unfold validateUpdates
        have hv1 : validateFieldName "callback_url" = Except.ok () := rfl
        rw [hv1]
        dsimp only
        unfold checkCallbackField
        rw [if_pos rfl]
        dsimp only
        rw [if_neg hne, hbad]
      · unfold validateUpdates
        cases hvf : validateFieldName f with
        | error e => exact ⟨e, rfl⟩
        | ok u =>
          cases u
          cases hcb : checkCallbackField uv f v with
          | error e2 => exact ⟨e2, rfl⟩
          | ok u2 =>
            cases u2
            exact ih hmem2
  obtain ⟨e, he⟩ := hvu
  unfold UpdateRecord
  cases hvt : validateTableName table with
  | error e2 => exact ⟨rfl, rfl⟩
  | ok u =>
    cases u
    rw [he]
    exact ⟨rfl, rfl⟩

/-- C8 (witness): a rejected non-empty callback URL fails the update with no
write. -/
theorem C8_witness :
    isOk (UpdateRecord "t" 1 [("callback_url", GoValue.str "http://x/")]
      alwaysBadValidate (.ok ())).1 = false ∧
    (UpdateRecord "t" 1 [("callback_url", GoValue.str "http://x/")]
      alwaysBadValidate (.ok ())).2 = [] :=
  C8_bad_url_blocks_update "t" 1 [("callback_url", GoValue.str "http://x/")]
    alwaysBadValidate (.ok ()) "http://x/" "always bad"
    (by simp) (by decide) rfl

/-- C9 (counterexample): a redelivered job against a record already Completed
re-runs and first writes Processing, a Completed→Processing transition that
the claimed invariant forbids. -/
theorem C9_counterexample :
    asSpecStatus (sampleRecord StatusCompleted "").status = SpecStatus.completed ∧
    ¬ List.Chain' allowedStep
      (statusTrail (sampleRecord StatusCompleted "").status
        (HandleLLMTask envCompletedRedelivery).trace) := by
  constructor
  · decide
  · have e1 : statusTrail (sampleRecord StatusCompleted "").status
        (HandleLLMTask envCompletedRedelivery).trace =
        [SpecStatus.completed, SpecStatus.processing, SpecStatus.completed] := rfl
    rw [e1]
    simp [List.chain'_cons, allowedStep]

/-- C9 (amended): starting from a record whose stored status is the pending
marker, the writes of one attempt follow
Pending→Processing→{Completed|Failed}, and every `failed_times` value written
is at least the fetched value; the transition discipline does not survive
redelivery against an already-terminal record (see the counterexample). -/
theorem C9_attempt_invariants (env : HandlerEnv) (p : LLMPayload)
    (rcd : ValuationRecord)
    (hp : env.payload = .ok p) (hf : env.fetch = .ok rcd)
    (hpend : asSpecStatus rcd.status = .pending) :
    List.Chain' allowedStep (statusTrail rcd.status (HandleLLMTask env).trace) ∧
    ∀ v ∈ failedTimesWrites (HandleLLMTask env).trace, rcd.failedTimes ≤ v := by
  unfold HandleLLMTask GetValuationRecord UpdateStatus UpdateRecord
  simp only [hp, hf]
  cases hvt : validateTableName p.tableName with
  | error e =>
    dsimp only
    refine ⟨?_, by intro v hv; exact absurd hv (by simp [failedTimesWrites])⟩
    have e1 : statusTrail rcd.status [] = [asSpecStatus rcd.status] := rfl
    rw [e1, hpend]
    simp [List.chain'_cons, allowedStep]
  | ok u =>
    cases u
    cases hse : env.statusExec with
    | error e =>
      dsimp only
      refine ⟨?_, by intro v hv; exact absurd hv (by simp [failedTimesWrites])⟩
      have e1 : statusTrail rcd.status ([DBOp.readRecord p.tableName p.id] ++ []) =
          [asSpecStatus rcd.status] := rfl
      rw [e1, hpend]
      simp [List.chain'_cons, allowedStep]
    | ok u =>
      cases u
      cases hll : env.llm with
      | error e =>
        cases hue : env.updateExec with
        | error e2 =>
          try simp only [validateUpdates_failedSet]
          refine ⟨?_, by intro v hv; exact absurd hv (by simp [failedTimesWrites])⟩
          have e1 : statusTrail rcd.status
              ([DBOp.readRecord p.tableName p.id] ++
               [DBOp.updateStatus p.tableName p.id StatusProcessing] ++ []) =
              [asSpecStatus rcd.status, SpecStatus.processing] := rfl
          rw [e1, hpend]
          simp [List.chain'_cons, allowedStep]
        | ok u2 =>
          cases u2
          try simp only [validateUpdates_failedSet]
          refine ⟨?_, ?_⟩
          · have e1 : statusTrail rcd.status
                ([DBOp.readRecord p.tableName p.id] ++
                 [DBOp.updateStatus p.tableName p.id StatusProcessing] ++
                 [DBOp.updateFields p.tableName p.id
                   [("status", GoValue.str StatusFailed),
                    ("failed_times", GoValue.int (rcd.failedTimes + 1)),
                    ("failed_info", GoValue.str e)]]) =
                [asSpecStatus rcd.status, SpecStatus.processing, SpecStatus.failed] := rfl
            rw [e1, hpend]
            simp [List.chain'_cons, allowedStep]
          · intro v hv
            have e2 : failedTimesWrites
                ([DBOp.readRecord p.tableName p.id] ++
                 [DBOp.updateStatus p.tableName p.id StatusProcessing] ++
                 [DBOp.updateFields p.tableName p.id
                   [("status", GoValue.str StatusFailed),
                    ("failed_times", GoValue.int (rcd.failedTimes + 1)),
                    ("failed_info", GoValue.str e)]]) = [rcd.failedTimes + 1] := rfl
            rw [e2] at hv
            simp at hv
            omega
      | ok result =>
        cases hue : env.updateExec with
        | error e2 =>
          try simp only [validateUpdates_completedSet]
          refine ⟨?_, by intro v hv; exact absurd hv (by simp [failedTimesWrites])⟩
          have e1 : statusTrail rcd.status
              ([DBOp.readRecord p.tableName p.id] ++
               [DBOp.updateStatus p.tableName p.id StatusProcessing] ++ []) =
              [asSpecStatus rcd.status, SpecStatus.processing] := rfl
          rw [e1, hpend]
          simp [List.chain'_cons, allowedStep]
        | ok u2 =>
          cases u2
          try simp only [validateUpdates_completedSet]
          refine ⟨?_, by intro v hv; exact absurd hv (by simp [failedTimesWrites])⟩
          have e1 : statusTrail rcd.status
              ([DBOp.readRecord p.tableName p.id] ++
               [DBOp.updateStatus p.tableName p.id StatusProcessing] ++
               [DBOp.updateFields p.tableName p.id
                 [("status", GoValue.str StatusCompleted),
                  ("report", GoValue.str result),
                  ("current_task_node", GoValue.int (rcd.currentTaskNode + 1))]]) =
              [asSpecStatus rcd.status, SpecStatus.processing, SpecStatus.completed] := rfl
          rw [e1, hpend]
          simp [List.chain'_cons, allowedStep]

/-- C9 (witness): a successful attempt on a pending record follows
Pending→Processing→Completed. -/
theorem C9_witness :
    List.Chain' allowedStep
      (statusTrail (sampleRecord "pending" "").status (HandleLLMTask envSuccess).trace) :=
  (C9_attempt_invariants envSuccess ⟨"valuation_records", 123⟩
    (sampleRecord "pending" "") rfl rfl (by decide)).1

/-- C10: with the enable flag off, the task handler installs exactly the
default breaker (2 half-open requests, 60-second window, 120-second open
timeout, failure-ratio threshold 1/2), so every completion call still runs
through `Breaker.execute` with those settings. -/
theorem C10_default_breaker (c : WorkerCBConfig) (h : c.enabled = false) :
    newTaskHandlerBreaker c = DefaultLLMCircuitBreaker ∧
    DefaultLLMCircuitBreaker.cfg =
      { maxRequests := 2, interval := 60, timeout := 120, failThreshold := 1/2 } ∧
    ∀ (now : Nat) (resp : Except String HttpResp),
      processLLM (newTaskHandlerBreaker c) now resp =
        processLLM DefaultLLMCircuitBreaker now resp := by
  have hb : newTaskHandlerBreaker c = DefaultLLMCircuitBreaker := by
    unfold newTaskHandlerBreaker
    rw [h]
    simp
  refine ⟨hb, ?_, fun now resp => by rw [hb]⟩
  unfold DefaultLLMCircuitBreaker NewCircuitBreaker
  simp only
  congr 1
  norm_num [Rat.mkRat_eq_div]

/-- C10 (witness): a disabled configuration yields the default breaker. -/
theorem C10_witness :
    newTaskHandlerBreaker ⟨false, 7, 9, 11, mkRat 3 4⟩ = DefaultLLMCircuitBreaker :=
  (C10_default_breaker ⟨false, 7, 9, 11, mkRat 3 4⟩ rfl).1

end SytQueue
